import Mathlib

/-!
Verification development for the metadata-resolution engine in
`src/requirementslib/models/setup_info.py`.

Conventions of the shallow embedding:

* Python strings are modelled as `PyStr := List Nat`, the list of character
  code points.  `pystr` converts a Lean string literal to this form so that
  statements stay readable.  All string operations used by the source
  (`strip`, `split`, `startswith`, `rpartition`, lower-casing) are defined
  structurally on these lists.
* Python `None` is `Option.none`; Python truthiness of strings, lists,
  dicts and `Option`s is made explicit at each use site.
* Fallible Python code returns `Except PyErr _`; the `PyErr` constructors
  name the Python exception class raised at that point.
* `frozenset` is `Finset`, tuples are `List`, dicts are association lists
  in insertion order.
* External collaborators (the `pkg_resources`/`packaging` parsers, the
  pep517 build process, the filesystem) are modelled as explicit
  environment records (`Env`, `DirEnv`, `GMEnv`); functions of the source
  file itself are translated line by line.
-/

abbrev PyStr := List Nat

/-- Code points of a string literal, the readable way to write a `PyStr`. -/
def pystr (s : String) : PyStr := s.data.map Char.toNat

instance {ε α : Type} [DecidableEq ε] [DecidableEq α] : DecidableEq (Except ε α) := fun a b =>
  match a, b with
  | .error e, .error f => decidable_of_iff (e = f) (by constructor; intro h; rw [h]; intro h; injection h)
  | .error _, .ok _ => .isFalse (fun h => by injection h)
  | .ok _, .error _ => .isFalse (fun h => by injection h)
  | .ok x, .ok y => decidable_of_iff (x = y) (by constructor; intro h; rw [h]; intro h; injection h)

/-- Python exception classes that the modelled code can raise. -/
inductive PyErr where
  | noSectionError
  | parseError
  | importError
  | attributeError
  | nameError
  | valueError
  | typeError
deriving DecidableEq, Repr

/-- Characters removed by Python `str.strip()` (space, tab, nl, vt, ff, cr). -/
def isSpaceCh (c : Nat) : Bool := decide (c = 32 ∨ c = 9 ∨ c = 10 ∨ c = 11 ∨ c = 12 ∨ c = 13)

/-- Characters legal in a requirement/package name: ASCII alphanumerics and
the separators hyphen, underscore, dot. -/
def isNameCh (c : Nat) : Bool :=
  decide ((48 ≤ c ∧ c ≤ 57) ∨ (65 ≤ c ∧ c ≤ 90) ∨ (97 ≤ c ∧ c ≤ 122) ∨ c = 45 ∨ c = 95 ∨ c = 46)

/-- Characters that may start the part of a requirement line after the name:
a version-comparison operator, a marker separator, extras bracket, or a
parenthesised specifier: one of  < = > ! ~ ; ( [ ,  . -/
def isSpecStartCh (c : Nat) : Bool :=
  decide (c = 60 ∨ c = 61 ∨ c = 62 ∨ c = 33 ∨ c = 126 ∨ c = 59 ∨ c = 40 ∨ c = 91 ∨ c = 44)

/-- ASCII lower-casing of one code point. -/
def lowerCh (c : Nat) : Nat := if 65 ≤ c ∧ c ≤ 90 then c + 32 else c

/-- Python `str.lower()`. -/
def lowerStr (s : PyStr) : PyStr := s.map lowerCh

/-- `str.lstrip()`. -/
def pyStripL (s : PyStr) : PyStr := s.dropWhile isSpaceCh

/-- `str.rstrip()`. -/
def pyStripR (s : PyStr) : PyStr := (s.reverse.dropWhile isSpaceCh).reverse

/-- Python `str.strip()`. -/
def pyStrip (s : PyStr) : PyStr := pyStripR (pyStripL s)

/-- Does `sep` occur as a contiguous subsequence?  Used to model the arity
check of Python `str.split(sep)` tuple unpacking. -/
def containsSeq (sep : PyStr) : PyStr → Bool
  | [] => sep.isPrefixOf []
  | c :: rest => sep.isPrefixOf (c :: rest) || containsSeq sep rest

/-- Python `str.split("\n")`. -/
def splitOnNl (l : PyStr) : List PyStr :=
  l.foldr
    (fun c acc =>
      if c = 10 then [] :: acc
      else
        match acc with
        | [] => [[c]]
        | h :: t => (c :: h) :: t)
    [[]]

/-- Python `str.rpartition(".")` restricted to the case where a dot is
present: returns the text before and after the last dot. -/
def rpartitionDot (l : PyStr) : PyStr × PyStr :=
  let r := l.reverse
  ((((r.dropWhile (fun c => !(c == 46))).drop 1).reverse), (r.takeWhile (fun c => !(c == 46))).reverse)

/-- Association-list lookup by key (Python dict read). -/
def alookup {α : Type} (k : PyStr) : List (PyStr × α) → Option α
  | [] => none
  | (k', v) :: rest => if k = k' then some v else alookup k rest

/-- Rewrite the value stored under `k`, leaving other keys alone
(Python `d[k] = f(d[k])` for a key known to be present). -/
def alApply {α : Type} (k : PyStr) (f : α → α) : List (PyStr × α) → List (PyStr × α)
  | [] => []
  | (k', v) :: rest => if k' = k then (k', f v) :: alApply k f rest else (k', v) :: alApply k f rest

/-- `Except`-valued map over a list, stopping at the first error: models a
Python comprehension whose element expression can raise. -/
def mapExcept {α β ε : Type} (f : α → Except ε β) : List α → Except ε (List β)
  | [] => .ok []
  | a :: l => do pure ((← f a) :: (← mapExcept f l))

/-- A conjunct of a PEP 508 environment marker, e.g. `extra == "docs"` or
`python_version >= "3.6"`; a full marker is the conjunction of its atoms
(this models the tuple elements of `packaging.markers.Marker._markers`). -/
structure MarkerAtom where
  var : PyStr
  op : PyStr
  val : PyStr
deriving DecidableEq, Repr

/-- A parsed requirement object (`pkg_resources`/`packaging` Requirement):
display name, specifier text (verbatim, possibly including marker text that
was never split out), and the structured environment marker. -/
structure PReq where
  name : PyStr
  spec : PyStr := []
  marker : List MarkerAtom := []
deriving DecidableEq, Repr

/-- Render a marker back to text (`" ; v op x [and ...]"`). -/
def markerRender : List MarkerAtom → PyStr
  | [] => []
  | [a] => a.var ++ [32] ++ a.op ++ [32] ++ a.val
  | a :: rest => a.var ++ [32] ++ a.op ++ [32] ++ a.val ++ pystr " and " ++ markerRender rest

/-- `str(req)` for a parsed requirement. -/
def PReq.toStr (r : PReq) : PyStr :=
  r.name ++ r.spec ++ (match r.marker with
    | [] => []
    | m => pystr " ; " ++ markerRender m)

/-- Modelled from the spec: `init_requirement` (an out-of-scope
requirement-normalization utility imported from `.utils`, not part of
`src/`) turns one dependency-declaration line into a parsed requirement
object, failing with a ParseError on a line that is not a syntactically
valid requirement.  The model accepts a name of name-characters optionally
followed by specifier/marker text introduced by an operator character; the
environment-marker portion is kept, normalized, inside the specifier
text. -/
def init_requirement (line : PyStr) : Except PyErr PReq :=
  let l := pyStrip line
  let n := l.takeWhile isNameCh
  let sp := pyStrip (l.dropWhile isNameCh)
  if n = [] then .error .parseError
  else
    match sp with
    | [] => .ok { name := n, spec := [], marker := [] }
    | c :: _ => if isSpecStartCh c then .ok { name := n, spec := sp, marker := [] } else .error .parseError

/-- `BaseRequirement` (attrs class, frozen): normalized key plus the parsed
requirement object.  The source defaults `requirement` to `None`, but every
construction site goes through `from_string`/`from_req`, which always supply
a parsed requirement, so the model keeps the field total. -/
structure BaseRequirement where
  name : PyStr
  requirement : PReq
deriving DecidableEq, Repr

/-- `BaseRequirement.__str__`: `str(self.requirement)`. -/
def BaseRequirement.toStr (b : BaseRequirement) : PyStr := b.requirement.toStr

/-- `BaseRequirement.from_req`: prefers the normalized `key` (the
lower-cased project name, as on `pkg_resources.Requirement`) over the raw
display name. -/
def BaseRequirement.from_req (req : PReq) : BaseRequirement :=
  { name := lowerStr req.name, requirement := req }

/-- `BaseRequirement.from_string`: strip the line, parse it, adapt it. -/
def BaseRequirement.from_string (line : PyStr) : Except PyErr BaseRequirement :=
  (init_requirement (pyStrip line)).map BaseRequirement.from_req

/-- Environment for `parse_special_directives`: the files that exist on
disk (path ↦ contents) and the importable modules (module name ↦ its
string-valued attributes). -/
structure DirEnv where
  files : List (PyStr × PyStr) := []
  modules : List (PyStr × List (PyStr × PyStr)) := []
deriving DecidableEq, Repr

def fileColon : PyStr := pystr "file:"

def attrColon : PyStr := pystr "attr:"

/-- `parse_special_directives` (setup_info.py:137-155).  `file:` values are
read from disk when the target exists and otherwise fall through to the
directive text itself; `attr:` values import a module and read an
attribute, raising on failure.  `_, path = setup_entry.split("file:")`
unpacks exactly two parts, so a second occurrence of the separator raises
ValueError; an `attr:` resource without a dot leaves the local `attribute`
unbound, so `getattr(module, attribute)` raises NameError after a
successful import. -/
def parse_special_directives (denv : DirEnv) (setup_entry : PyStr) : Except PyErr PyStr :=
  if fileColon.isPrefixOf setup_entry then
    let rest := setup_entry.drop fileColon.length
    if containsSeq fileColon rest then .error .valueError
    else
      let path := pyStrip rest
      match alookup path denv.files with
      | some contents => .ok contents
      | none => .ok setup_entry
  else if attrColon.isPrefixOf setup_entry then
    let rest := setup_entry.drop attrColon.length
    if containsSeq attrColon rest then .error .valueError
    else
      let resource := pyStrip rest
      if (46 : Nat) ∈ resource then
        match alookup (rpartitionDot resource).1 denv.modules with
        | none => .error .importError
        | some attrs =>
          match alookup (rpartitionDot resource).2 attrs with
          | none => .error .attributeError
          | some v => .ok v
      else
        match alookup resource denv.modules with
        | none => .error .importError
        | some _ => .error .nameError
  else .ok setup_entry

/-- A declarative config file after `configparser` has read it: sections in
file order, each a list of (option, value) pairs (option names already
lower-cased by `optionxform`). -/
structure CfgFile where
  sections : List (PyStr × List (PyStr × PyStr)) := []
deriving DecidableEq, Repr

/-- The keys of the `default_opts` dict handed to `ConfigParser(...)` in
`parse_setup_cfg`; `configparser` stores them in the DEFAULT section, so
they surface from `has_option` and `options()` for every section. -/
def defaultKeys : List PyStr := [pystr "metadata", pystr "options"]

def CfgFile.hasSection (cfg : CfgFile) (sec : PyStr) : Bool := (alookup sec cfg.sections).isSome

def CfgFile.opts (cfg : CfgFile) (sec : PyStr) : List (PyStr × PyStr) :=
  (alookup sec cfg.sections).getD []

/-- `ConfigParser.has_option`: NoSectionError when the section is missing,
otherwise presence in the section or among the defaults. -/
def CfgFile.has_option (cfg : CfgFile) (sec opt : PyStr) : Except PyErr Bool :=
  if cfg.hasSection sec then .ok ((alookup opt (cfg.opts sec)).isSome || opt ∈ defaultKeys)
  else .error .noSectionError

/-- `ConfigParser.get` at a call site where `has_option`/`options()` has
established that the option is present in the section itself. -/
def CfgFile.getv (cfg : CfgFile) (sec opt : PyStr) : PyStr :=
  (alookup opt (cfg.opts sec)).getD []

/-- `ConfigParser.options(section)`: the DEFAULT-section keys followed by
the section's own options. -/
def CfgFile.optionNames (cfg : CfgFile) (sec : PyStr) : List PyStr :=
  defaultKeys ++ (cfg.opts sec).map Prod.fst

/-- The dict returned by `parse_setup_cfg`; a field is `some` exactly when
the corresponding key is present in the dict. -/
structure CfgResult where
  name : Option PyStr := none
  version : Option PyStr := none
  install_requires : Option (Finset BaseRequirement) := none
  python_requires : Option PyStr := none
  build_requires : Option PyStr := none
  extras_require : Option (List (PyStr × List BaseRequirement)) := none
deriving DecidableEq

/-- The `options.extras_require` loop of `parse_setup_cfg` (lines 197-210):
skip the DEFAULT-section keys, split each section body into lines, skip
blanks and `#` comments, parse every line, and record the section only if
it produced at least one requirement. -/
def extrasLoop (cfg : CfgFile) : List PyStr → Except PyErr (List (PyStr × List BaseRequirement))
  | [] => .ok []
  | o :: rest =>
    if o = pystr "options" ∨ o = pystr "metadata" then extrasLoop cfg rest
    else do
      let lines := splitOnNl (cfg.getv (pystr "options.extras_require") o)
      let good := lines.filter (fun l => !(l.isEmpty) && !(l.head? == some 35))
      let reqs ← mapExcept BaseRequirement.from_string good
      let rest' ← extrasLoop cfg rest
      pure (if reqs.isEmpty then rest' else (o, reqs) :: rest')

/-- `parse_setup_cfg` (setup_info.py:158-212).  `none` in means the file
does not exist (the Python function then returns `None`); errors are the
uncaught exceptions of the original (`NoSectionError` from `has_option` on
a missing section, parse and directive errors from the per-value calls). -/
def parse_setup_cfg (denv : DirEnv) (file : Option CfgFile) : Except PyErr (Option CfgResult) :=
  match file with
  | none => .ok none
  | some cfg => do
    let hasName ← cfg.has_option (pystr "metadata") (pystr "name")
    let name? ← if hasName
      then do
        let v ← parse_special_directives denv (cfg.getv (pystr "metadata") (pystr "name"))
        pure (some v)
      else pure none
    let hasVersion ← cfg.has_option (pystr "metadata") (pystr "version")
    let version? ← if hasVersion
      then do
        let v ← parse_special_directives denv (cfg.getv (pystr "metadata") (pystr "version"))
        pure (some v)
      else pure none
    let hasInstall ← cfg.has_option (pystr "options") (pystr "install_requires")
    let install_requires ← if hasInstall
      then do
        let deps := (splitOnNl (cfg.getv (pystr "options") (pystr "install_requires"))).filter
          (fun dep => !(dep.isEmpty))
        let reqs ← mapExcept BaseRequirement.from_string deps
        pure reqs.toFinset
      else pure (∅ : Finset BaseRequirement)
    let hasPyReq ← cfg.has_option (pystr "options") (pystr "python_requires")
    let python_requires? ← if hasPyReq
      then do
        let v ← parse_special_directives denv (cfg.getv (pystr "options") (pystr "python_requires"))
        pure (some v)
      else pure none
    let hasBuildReq ← cfg.has_option (pystr "options") (pystr "build_requires")
    let build_requires? := if hasBuildReq
      then some (cfg.getv (pystr "options") (pystr "build_requires"))
      else none
    let extras ← if cfg.hasSection (pystr "options.extras_require")
      then extrasLoop cfg (cfg.optionNames (pystr "options.extras_require"))
      else pure []
    pure (some
      { name := name?
        version := version?
        install_requires := some install_requires
        python_requires := python_requires?
        build_requires := build_requires?
        extras_require := some extras })

/-- `Extra` (attrs class, frozen): one optional-feature group. -/
structure Extra where
  name : Option PyStr := none
  requirements : Finset BaseRequirement := ∅
deriving DecidableEq

/-- `Extra.add` (setup_info.py:543-549).  When `req` is already present the
method returns `self`.  Otherwise it evaluates
`frozenset(set(self.requirements).add(req))`: Python's `set.add` returns
`None`, so `frozenset(None)` raises `TypeError: 'NoneType' object is not
iterable` — the `attr.evolve` copy is never produced. -/
def Extra.add (e : Extra) (req : BaseRequirement) : Except PyErr Extra :=
  if req ∉ e.requirements then .error .typeError
  else .ok e

/-- `Extra.as_dict`. -/
def Extra.as_dict (e : Extra) : Option PyStr × Finset PReq :=
  (e.name, e.requirements.image BaseRequirement.requirement)

def extraVar : PyStr := pystr "extra"

/-- `get_extra_name_from_marker` (setup_info.py:408-418): the value of the
first `extra == <name>` atom of the marker, if any.  (The source raises for
a falsy or non-marker argument; every call site guards with
`if parsed_marker:`, so the model is total.) -/
def get_extra_name_from_marker (marker : List MarkerAtom) : Option PyStr :=
  (marker.find? (fun a => a.var = extraVar)).map MarkerAtom.val

/-- Modelled from the spec: `strip_extras_markers_from_requirement`
(imported from `.utils`, not part of `src/`) removes the extras-membership
conjuncts (`extra == <name>`) from a requirement's environment marker and
leaves everything else in place. -/
def strip_extras_markers_from_requirement (req : PReq) : PReq :=
  { req with marker := req.marker.filter (fun a => !(a.var = extraVar : Bool)) }

/-- The metadata dict produced by the extractors (`get_metadata_from_wheel`
and `get_metadata_from_dist` both return the keys `name`, `version`,
`requires`, `extras`; `SetupInfo.populate_metadata` reads them through
`dict.get`, hence the `Option` identity fields). -/
structure Metadata where
  name : Option PyStr := none
  version : Option PyStr := none
  requires : List PReq := []
  extras : List (PyStr × List PReq) := []
deriving DecidableEq, Repr

/-- The embedded `distlib` wheel metadata handed to
`get_metadata_from_wheel`: declared extras and the run-time requirement
entries, the latter already taken through `init_requirement` (requirement
normalization is an out-of-scope collaborator per the spec). -/
structure WheelMeta where
  name : PyStr
  version : PyStr
  extras : List PyStr := []
  run_requires : List PReq := []
deriving DecidableEq, Repr

/-- The requirement-splitting loop of `get_metadata_from_wheel`
(setup_info.py:432-448), threading the unconditional list and the extras
dict left to right. -/
def splitRunRequires (requires : List PReq) (extras : List (PyStr × List PReq)) :
    List PReq → List PReq × List (PyStr × List PReq)
  | [] => (requires, extras)
  | req :: rest =>
    if req.marker.isEmpty then splitRunRequires (requires ++ [req]) extras rest
    else
      match get_extra_name_from_marker req.marker with
      | none => splitRunRequires (requires ++ [req]) extras rest
      | some extra =>
        let extras := if (alookup extra extras).isSome then extras else extras ++ [(extra, [])]
        let stripped := strip_extras_markers_from_requirement req
        splitRunRequires requires (alApply extra (fun l => l ++ [stripped]) extras) rest

/-- `get_metadata_from_wheel` (setup_info.py:421-449): name, version, and
the run-time requirements split between the unconditional list and the
extras table keyed by the `extra == <name>` marker. -/
def get_metadata_from_wheel (w : WheelMeta) : Metadata :=
  let (requires, extras) := splitRunRequires [] (w.extras.map (fun k => (k, []))) w.run_requires
  { name := some w.name, version := some w.version, requires := requires, extras := extras }

/-- `ensure_reqs` (setup_info.py:271-286): skips falsy entries and parses
any entry still in string form.  The model receives already-parsed
requirement objects (parsing is the out-of-scope normalization utility), so
it is the identity. -/
def ensure_reqs (reqs : List PReq) : List PReq := reqs

/-- A `pkg_resources` distribution found in an installed-metadata
directory: the fields `get_metadata_from_dist` reads from it.  `requires`
is the result of `dist.requires()` and `dep_map` the raw
`dist._build_dep_map()` (keys: `None` for unconditional requirements,
`":python_version..."` for version-conditional sections, anything else an
extra name). -/
structure PRDist where
  project_name : PyStr
  version : PyStr
  requires : List PReq := []
  dep_map : List (Option PyStr × List PReq) := []
deriving DecidableEq, Repr

def pyverKey : PyStr := pystr ":python_version"

/-- `k.replace(":", "; ")`. -/
def replaceColon (l : PyStr) : PyStr :=
  l.foldr (fun c acc => if c = 58 then 59 :: 32 :: acc else c :: acc) []

/-- The `dep_map` loop of `get_metadata_from_dist` (setup_info.py:462-481):
`None`-keyed entries extend the plain deps, `":python_version"`-keyed
entries get the marker text re-attached to each requirement and also extend
the plain deps, and any other key is an extra.  (An extra declared twice in
`dep_map` overwrites, as a dict assignment does.) -/
def depMapLoop (deps : List PReq) (extras : List (PyStr × List PReq)) :
    List (Option PyStr × List PReq) → List PReq × List (PyStr × List PReq)
  | [] => (deps, extras)
  | (none, reqs) :: rest => depMapLoop (deps ++ reqs) extras rest
  | (some k, reqs) :: rest =>
    if pyverKey.isPrefixOf k then
      let marker := replaceColon k
      depMapLoop (deps ++ ensure_reqs (reqs.map (fun r => { r with spec := r.spec ++ marker }))) extras rest
    else
      let entry := (k, ensure_reqs reqs)
      if (alookup k extras).isSome then depMapLoop deps (alApply k (fun _ => entry.2) extras) rest
      else depMapLoop deps (extras ++ [entry]) rest

/-- `get_metadata_from_dist` (setup_info.py:452-487).  Note that the `deps`
list accumulated from `dep_map` is dead in the source: the returned
`requires` key carries `dist.requires()`. -/
def get_metadata_from_dist (dist : PRDist) : Metadata :=
  let (_deps, extras) := depMapLoop [] [] dist.dep_map
  { name := some dist.project_name
    version := some dist.version
    requires := dist.requires
    extras := extras }

/-- Metadata-directory convention filter of `get_metadata` (the Python
`metadata_type` argument; `none` is unconstrained). -/
inductive MType where
  | wheel
  | egg
deriving DecidableEq, Repr

/-- What the filesystem search of `get_metadata` finds under one base
directory: the first egg-info and dist-info directories yielded by
`find_egginfo`/`find_distinfo`, and the `pkg_resources` distributions that
parsing each convention produces. -/
structure GMEnv where
  egg_dir : Option PyStr := none
  dist_dir : Option PyStr := none
  distinfo_dist : Option PRDist := none
  egg_dist : Option PRDist := none
deriving DecidableEq, Repr

/-- `get_metadata` (setup_info.py:372-405): collect the candidate metadata
directories (dist-info first when allowed, then egg-info), and parse the
first available distribution preferring the dist-info one.  The Python
function returns `{}` when nothing matched; the model returns `none` for
that falsy dict. -/
def get_metadata (env : GMEnv) (metadata_type : Option MType) : Option Metadata :=
  let wheel_allowed := metadata_type = some MType.wheel ∨ metadata_type = none
  let egg_allowed := metadata_type = some MType.egg ∨ metadata_type = none
  let metadata_dirs : List PyStr :=
    (match env.dist_dir with
      | some d => if wheel_allowed then [d] else []
      | none => []) ++
    (match env.egg_dir with
      | some e => if egg_allowed then [e] else []
      | none => [])
  match metadata_dirs.head? with
  | none => none
  | some _ =>
    let distinfo_dist := if wheel_allowed ∧ env.dist_dir.isSome then env.distinfo_dist else none
    let egg_dist := if egg_allowed ∧ env.egg_dir.isSome then env.egg_dist else none
    match distinfo_dist with
    | some d => some (get_metadata_from_dist d)
    | none =>
      match egg_dist with
      | some d => some (get_metadata_from_dist d)
      | none => none

/-- Modelled from the spec: `get_default_pyproject_backend` (imported from
`.utils`, not part of `src/`) names the standard default build backend used
when no descriptor file specifies one. -/
def get_default_pyproject_backend : PyStr := pystr "setuptools.build_meta:__legacy__"

/-- Python truthiness of an optional string (`None` and `""` are falsy). -/
def pyTruthy : Option PyStr → Bool
  | none => false
  | some s => !s.isEmpty

/-- `tuple(set(xs) | set(ys))`: the union as a deduplicated list.  The
source materializes a Python set whose iteration order is unspecified; the
model keeps first-occurrence order. -/
def listUnion (xs ys : List PyStr) : List PyStr := (xs ++ ys).dedup

/-- Python `set(v)` for `v = parsed.get("build_requires", [])`: when the
config value is present it is raw text, so `set(v)` is its set of
characters (as one-character strings); when absent, `set([])` is empty. -/
def strAsSet : Option PyStr → List PyStr
  | none => []
  | some cs => cs.dedup.map (fun c => [c])

/-- The originating `InstallRequirement`: only its `extras` tuple is read
by the modelled code. -/
structure IReq where
  extras : List PyStr := []
deriving DecidableEq, Repr

/-- The `distutils` distribution object harvested from the process-wide
`_setup_distribution` slot after executing `setup.py`
(`dist.get_name()`/`dist.get_version()` fall back to `"UNKNOWN"`/`"0.0.0"`
when the script declares none). -/
structure Distribution where
  name : PyStr := pystr "UNKNOWN"
  version : PyStr := pystr "0.0.0"
  python_requires : Option PyStr := none
  extras_require : List (PyStr × List PReq) := []
  requires : List PReq := []
  install_requires : List PReq := []
  setup_requires : List PyStr := []
deriving DecidableEq, Repr

/-- The world one `SetupInfo` resolution runs against: which declaration
files exist, the parsed contents of `setup.cfg` (`cfg`, via `configparser`)
and of `pyproject.toml` (`pyproject_data`, via `get_pyproject`), the
outcome of the isolated pep517 builds (`wheel_result` is the wheel's
embedded metadata on success and `none` when the build raises, `sdist_ok`
likewise for the sdist attempt), what the installed-metadata probe
(`get_metadata` over the build/egg-base/src directories) returns for a
given convention filter and package-name filter (`probe`), and the
distribution object a `setup.py` run captures (`dist_obj`).
`pyproject_exists` is mutable state: `build_wheel`/`build_sdist` write a
default `pyproject.toml` when none exists. -/
structure Env where
  setup_py_exists : Bool := false
  setup_cfg_exists : Bool := false
  pyproject_exists : Bool := false
  cfg : CfgFile := {}
  denv : DirEnv := {}
  pyproject_data : Option (List PyStr × Option PyStr) := none
  wheel_result : Option WheelMeta := none
  sdist_ok : Bool := false
  probe : List ((Option MType × Option PyStr) × Metadata) := []
  dist_obj : Option Distribution := none
deriving DecidableEq

/-- The installed-metadata probe result for one (convention filter,
package-name filter) query. -/
def Env.probeAt (env : Env) (mt : Option MType) (nm : Option PyStr) : Option Metadata :=
  (env.probe.find? (fun e => decide (e.1 = (mt, nm)))).map Prod.snd

/-- `SetupInfo` (attrs class, setup_info.py:556-576): the
metadata-resolution aggregate.  `requirements` and `extras_requirements`
model the private `_requirements` frozenset and `_extras_requirements`
tuple; the `setup_cfg`/`setup_py`/`pyproject` fields hold the `Path` values
assigned by `create` (existence lives in `Env`); `metadata` holds the last
populated snapshot (`None` until an extractor succeeds — the packed
`_metadata` tuple of a populated snapshot is never empty, so `some`
coincides with Python truthiness). -/
structure SetupInfo where
  name : Option PyStr := none
  base_dir : Option PyStr := none
  version : Option PyStr := none
  requirements : Finset BaseRequirement := ∅
  build_requires : List PyStr := []
  build_backend : PyStr := get_default_pyproject_backend
  setup_requires : List PyStr := []
  python_requires : Option PyStr := none
  extras_requirements : List (PyStr × List BaseRequirement) := []
  setup_cfg : Option PyStr := none
  setup_py : Option PyStr := none
  pyproject : Option PyStr := none
  ireq : Option IReq := none
  extra_kwargs : List (PyStr × PyStr) := []
  metadata : Option Metadata := none
deriving DecidableEq

/-- The `requires` property builds `{req.name: req.requirement}` from the
requirement frozenset; the model keeps the generating set (the dict's
resolution of duplicate names from an unordered set is arbitrary).
Truthiness of the dict coincides with nonemptiness of the set. -/
def SetupInfo.requires (s : SetupInfo) : Finset BaseRequirement := s.requirements

/-- Insert-or-overwrite (Python `d[k] = v`). -/
def upsert {α : Type} (d : List (PyStr × α)) (k : PyStr) (v : α) : List (PyStr × α) :=
  if (alookup k d).isSome then alApply k (fun _ => v) d else d ++ [(k, v)]

/-- The `extras` property: a dict built from `set(self._extras_requirements)`
with `extras_dict[section] = [d.requirement for d in deps]`.  The set
dedups exact duplicates and iterates in unspecified order; the model dedups
and keeps first-occurrence order.  (The `isinstance(deps, BaseRequirement)`
branch is dead here: every stored entry is a tuple of records.) -/
def SetupInfo.extras (s : SetupInfo) : List (PyStr × List PReq) :=
  (s.extras_requirements.dedup).foldl
    (fun d kv => upsert d kv.1 (kv.2.map BaseRequirement.requirement)) []

/-- One iteration of the requested-extras loop of
`SetupInfo.populate_metadata` (setup_info.py:867-881): a truthy extras list
for the requested extra is adapted to records, appended to the extras
tuple, and unioned into the requirement set. -/
def populate_extra_step (m : Metadata) (s : SetupInfo) (extra : PyStr) : SetupInfo :=
  let extras := (alookup extra m.extras).getD []
  if extras.isEmpty then s
  else
    let extras_tuple := (ensure_reqs extras).map BaseRequirement.from_req
    { s with
      extras_requirements := s.extras_requirements ++ [(extra, extras_tuple)]
      requirements := s.requirements ∪ extras_tuple.toFinset }

/-- `SetupInfo.populate_metadata` (setup_info.py:845-881): store the packed
snapshot, fill `name`/`version` only when currently unset/falsy, union the
parsed requirements into the requirement set, and for each extra requested
by the originating requirement append that extra's requirements (also into
the unconditional set). -/
def SetupInfo.populate_metadata (s : SetupInfo) (m : Metadata) : SetupInfo :=
  let s := { s with metadata := some m }
  let s := if s.name = none then { s with name := m.name } else s
  let s := if pyTruthy s.version then s
    else { s with version := match m.version with | some v => some v | none => s.version }
  let s := { s with
    requirements := s.requirements ∪ (m.requires.map BaseRequirement.from_req).toFinset }
  match s.ireq with
  | some ir =>
    if ir.extras.isEmpty then s
    else ir.extras.foldl (populate_extra_step m) s
  | none => s

/-- `SetupInfo.get_setup_cfg` (classmethod): delegates to the module-level
config extractor. -/
def SetupInfo.get_setup_cfg (denv : DirEnv) (file : Option CfgFile) : Except PyErr (Option CfgResult) :=
  parse_setup_cfg denv file

/-- `SetupInfo.parse_setup_cfg` (method, setup_info.py:625-658): merge the
parsed config into the aggregate.  `name`/`version`/`python_requires` are
first-writer-wins; the parsed install requirements union in; the parsed
extras tuple is appended; a *truthy* existing `build_requires` is unioned
with `set(<build_requires text>)` (an absent option contributes `set([])`,
and a falsy existing value leaves the parsed text unused); finally the
extras requested by the originating requirement are folded in. -/
def SetupInfo.parse_setup_cfg (env : Env) (s : SetupInfo) : Except PyErr SetupInfo :=
  if s.setup_cfg.isSome ∧ env.setup_cfg_exists then do
    match ← get_setup_cfg env.denv (some env.cfg) with
    | none => pure s
    | some parsed =>
      let s := if s.name = none then { s with name := parsed.name } else s
      let s := if s.version = none then { s with version := parsed.version } else s
      let s := if s.build_requires.isEmpty then s
        else { s with build_requires := listUnion s.build_requires (strAsSet parsed.build_requires) }
      let s := { s with requirements := s.requirements ∪ (parsed.install_requires.getD ∅) }
      let s := if s.python_requires = none then { s with python_requires := parsed.python_requires }
        else s
      let ex := parsed.extras_require.getD []
      let s := if s.extras_requirements.isEmpty then { s with extras_requirements := ex }
        else { s with extras_requirements := s.extras_requirements ++ ex }
      let s := match s.ireq with
        | some ir =>
          if ir.extras.isEmpty then s
          else
            ir.extras.foldl
              (fun s extra =>
                match alookup extra s.extras with
                | some reqObjs =>
                  let extras_tuple := reqObjs.map BaseRequirement.from_req
                  { s with
                    extras_requirements := s.extras_requirements ++ [(extra, extras_tuple)]
                    requirements := s.requirements ∪ extras_tuple.toFinset }
                | none => s)
              s
        | none => s
      pure s
  else pure s

/-- `SetupInfo.get_egg_metadata` (setup_info.py:823-843): when at least one
declaration file exists, run the installed-metadata probe (`get_metadata`
over the build dir, egg base and src dir, filtered by the current package
name) and populate from the first truthy result.  The optional extra
`metadata_dir` argument is unused by the orchestrator and omitted here. -/
def SetupInfo.get_egg_metadata (env : Env) (s : SetupInfo) (metadata_type : Option MType) : SetupInfo :=
  let indicators := (s.pyproject.isSome && env.pyproject_exists) ||
    (s.setup_py.isSome && env.setup_py_exists) ||
    (s.setup_cfg.isSome && env.setup_cfg_exists)
  if indicators then
    match env.probeAt metadata_type s.name with
    | some m => s.populate_metadata m
    | none => s
  else s

/-- `SetupInfo.run_setup` (setup_info.py:660-734): execute `setup.py` (only
when it exists) and merge the captured distribution object.  With no
captured distribution the method falls back to the installed-metadata
probe.  Every field except `name` is filled only when currently
unset/falsy; `name` is assigned unconditionally whenever the distribution
reports a truthy name.  (In the requested-extras union the source inserts
the raw requirement objects from `self.extras` into the record set; the
model adapts them through `from_req`.) -/
def SetupInfo.run_setup (env : Env) (s : SetupInfo) : SetupInfo :=
  if s.setup_py.isSome ∧ env.setup_py_exists then
    match env.dist_obj with
    | none => s.get_egg_metadata env none
    | some dist =>
      let s := if dist.name.isEmpty then s else { s with name := some dist.name }
      let s := if pyTruthy dist.python_requires ∧ ¬ (pyTruthy s.python_requires = true) then
          { s with python_requires := dist.python_requires }
        else s
      let s := if ¬ dist.extras_require.isEmpty ∧ (s.extras).isEmpty then
          { s with extras_requirements := s.extras_requirements ++
              dist.extras_require.map (fun kv => (kv.1, kv.2.map BaseRequirement.from_req)) }
        else s
      let install_requires := if dist.requires.isEmpty then dist.install_requires else dist.requires
      let s := if ¬ install_requires.isEmpty ∧ s.requires = ∅ then
          let requirements := (install_requires.map BaseRequirement.from_req).toFinset
          let requirements := match s.ireq with
            | some ir =>
              if ir.extras.isEmpty then requirements
              else
                ir.extras.foldl
                  (fun r extra =>
                    r ∪ (((alookup extra s.extras).getD []).map BaseRequirement.from_req).toFinset)
                  requirements
            | none => requirements
          { s with requirements := s.requirements ∪ requirements }
        else s
      let s := if ¬ dist.setup_requires.isEmpty ∧ s.setup_requires.isEmpty then
          { s with setup_requires := dist.setup_requires }
        else s
      if pyTruthy s.version then s else { s with version := some dist.version }
  else s

/-- `SetupInfo.build` (setup_info.py:784-803): try the wheel build (whose
first step writes a default `pyproject.toml` when none exists), fall back
to the sdist build plus an egg-constrained probe, then — whenever no
metadata or name was obtained — the unconstrained probe and finally the
legacy script.  (A wheel build that succeeds feeds
`get_metadata_from_wheel`'s dict, always truthy, into
`populate_metadata`.) -/
def SetupInfo.build (env : Env) (s : SetupInfo) : SetupInfo × Env :=
  let env := if env.pyproject_exists then env else { env with pyproject_exists := true }
  let s :=
    match env.wheel_result with
    | some w => s.populate_metadata (get_metadata_from_wheel w)
    | none => if env.sdist_ok then s.get_egg_metadata env (some MType.egg) else s
  let s := if s.metadata = none ∨ ¬ (pyTruthy s.name = true) then s.get_egg_metadata env none else s
  let s := if s.metadata = none ∨ ¬ (pyTruthy s.name = true) then s.run_setup env else s
  (s, env)

/-- `SetupInfo.run_pyproject` (setup_info.py:883-896): read the backend
descriptor when it exists; a declared backend overwrites, an absent one
resets to the default; declared build requirements union in, and an empty
declaration resets to `("setuptools", "wheel")`. -/
def SetupInfo.run_pyproject (env : Env) (s : SetupInfo) : SetupInfo :=
  if s.pyproject.isSome ∧ env.pyproject_exists then
    match env.pyproject_data with
    | some (requires, backend) =>
      let s := if pyTruthy backend then { s with build_backend := backend.getD [] }
        else { s with build_backend := get_default_pyproject_backend }
      if requires.isEmpty then { s with build_requires := [pystr "setuptools", pystr "wheel"] }
      else { s with build_requires := listUnion requires s.build_requires }
    | none => s
  else s

/-- `SetupInfo.get_info` (setup_info.py:898-920): parse the config file,
read the backend descriptor, run the build/fallback chain, and as a last
resort (a `setup.py` present but no metadata) run the legacy script and
re-probe.  The Python method returns `self.as_dict()`; the model returns
the final aggregate and filesystem state, to which `as_dict` applies. -/
def SetupInfo.get_info (env : Env) (s : SetupInfo) : Except PyErr (SetupInfo × Env) := do
  let s ← if s.setup_cfg.isSome ∧ env.setup_cfg_exists then s.parse_setup_cfg env else pure s
  let s := s.run_pyproject env
  let (s, env) := s.build env
  let s :=
    if s.setup_py.isSome ∧ env.setup_py_exists ∧ s.metadata = none then
      if s.requires = ∅ ∨ ¬ (pyTruthy s.name = true) then
        let s := s.run_setup env
        if s.metadata = none ∨ ¬ (pyTruthy s.name = true) then s.get_egg_metadata env none else s
      else s
    else s
  pure (s, env)

/-- `SetupInfo.reload` (setup_info.py:805-815): wipe the scratch metadata
directory (a filesystem-only effect: `shutil.rmtree` over the entries of
`egg_base`, with `ignore_errors=True`), reset `metadata`, `_requirements`
and `_extras_requirements`, and run `get_info` again. -/
def SetupInfo.reload (env : Env) (s : SetupInfo) : Except PyErr (SetupInfo × Env) :=
  SetupInfo.get_info env { s with metadata := none, requirements := ∅, extras_requirements := [] }

/-- The dict returned by `SetupInfo.as_dict`: a field is `some` exactly
when the key survives the final `{k: v for k, v in prop_dict.items() if v}`
truthiness filter. -/
structure InfoDict where
  name : Option PyStr := none
  version : Option PyStr := none
  base_dir : Option PyStr := none
  ireq : Option IReq := none
  build_backend : Option PyStr := none
  build_requires : Option (List PyStr) := none
  requires : Option (Finset BaseRequirement) := none
  setup_requires : Option (List PyStr) := none
  python_requires : Option PyStr := none
  extras : Option (List (PyStr × List PReq)) := none
  extra_kwargs : Option (List (PyStr × PyStr)) := none
  setup_cfg : Option PyStr := none
  setup_py : Option PyStr := none
  pyproject : Option PyStr := none
deriving DecidableEq

/-- `SetupInfo.as_dict` (setup_info.py:922-940): every falsy value is
dropped.  `ireq` and the three `Path` fields are objects, truthy whenever
set; `requires`/`extras` are dicts, truthy when nonempty. -/
def SetupInfo.as_dict (s : SetupInfo) : InfoDict :=
  { name := if pyTruthy s.name then s.name else none
    version := if pyTruthy s.version then s.version else none
    base_dir := if pyTruthy s.base_dir then s.base_dir else none
    ireq := s.ireq
    build_backend := if s.build_backend.isEmpty then none else some s.build_backend
    build_requires := if s.build_requires.isEmpty then none else some s.build_requires
    requires := if s.requires = ∅ then none else some s.requires
    setup_requires := if s.setup_requires.isEmpty then none else some s.setup_requires
    python_requires := if pyTruthy s.python_requires then s.python_requires else none
    extras := if (s.extras).isEmpty then none else some s.extras
    extra_kwargs := if s.extra_kwargs.isEmpty then none else some s.extra_kwargs
    setup_cfg := s.setup_cfg
    setup_py := s.setup_py
    pyproject := s.pyproject }

/-- The presence formula `has_option` computes for an existing section. -/
def declaredOpt (cfg : CfgFile) (sec opt : PyStr) : Bool :=
  (alookup opt (cfg.opts sec)).isSome || opt ∈ defaultKeys

/-- A `setup.cfg` with a `[metadata]` section (declaring only `name`) and an
empty `[options]` section; no `options.install_requires`, no
`options.extras_require`. -/
def cfgC5 : CfgFile :=
  { sections := [(pystr "metadata", [(pystr "name", pystr "pkg")]), (pystr "options", [])] }

/-- The record `parse_setup_cfg` produces for `cfgC5`. -/
def cfgC5r : CfgResult :=
  { name := some (pystr "pkg")
    install_requires := some (∅ : Finset BaseRequirement)
    extras_require := some [] }

/-- A requirement reading `sphinx ; extra == "docs"`. -/
def sphinxReq : PReq :=
  { name := pystr "sphinx", marker := [⟨pystr "extra", pystr "==", pystr "docs"⟩] }

/-- Wheel metadata with one extras-qualified, one version-qualified and one
plain requirement. -/
def wmC6 : WheelMeta :=
  { name := pystr "pkg"
    version := pystr "1.0"
    extras := [pystr "docs"]
    run_requires :=
      [sphinxReq,
       { name := pystr "six", marker := [⟨pystr "python_version", pystr "<", pystr "3"⟩] },
       { name := pystr "base", spec := pystr ">=1" }] }

/-- An installed distribution with a plain section and a `docs` extra. -/
def prdC6 : PRDist :=
  { project_name := pystr "pkg"
    version := pystr "1.0"
    dep_map := [(none, [{ name := pystr "base" }]), (some (pystr "docs"), [{ name := pystr "sphinx" }])] }

/-- The record set one requested extra contributes in `populate_metadata`. -/
def extraReqSet (m : Metadata) (extra : PyStr) : Finset BaseRequirement :=
  let extras := (alookup extra m.extras).getD []
  if extras.isEmpty then ∅ else ((ensure_reqs extras).map BaseRequirement.from_req).toFinset

/-- The total requirement contribution of the requested-extras loop. -/
def ireqExtrasSet (ireq : Option IReq) (m : Metadata) : Finset BaseRequirement :=
  match ireq with
  | none => ∅
  | some ir =>
    if ir.extras.isEmpty then ∅
    else ir.extras.foldl (fun acc e => acc ∪ extraReqSet m e) ∅

/-- The aggregate exactly as `SetupInfo.create` builds it for a package
directory `/tmp/pkg`: `base_dir` and the three declaration-file `Path`s
assigned, `extra_kwargs` carrying the build and source scratch directories,
everything else at its attrs default. -/
def freshState : SetupInfo :=
  { base_dir := some (pystr "/tmp/pkg")
    setup_cfg := some (pystr "/tmp/pkg/setup.cfg")
    setup_py := some (pystr "/tmp/pkg/setup.py")
    pyproject := some (pystr "/tmp/pkg/pyproject.toml")
    extra_kwargs := [(pystr "build_dir", pystr "/tmp/build"), (pystr "src_dir", pystr "/tmp/src")] }

/-- A `setup.cfg` declaring `[metadata] name = pkga, version = 1.0` next to
an empty `[options]` section. -/
def c1Cfg : CfgFile :=
  { sections := [(pystr "metadata", [(pystr "name", pystr "pkga"), (pystr "version", pystr "1.0")]),
                 (pystr "options", [])] }

/-- An environment where `setup.cfg` and `setup.py` exist, both pep517
builds fail, the metadata probes find nothing, and running `setup.py`
captures a distribution that reports the name `pkgb` and version `2.0`. -/
def c1Env : Env :=
  { setup_py_exists := true
    setup_cfg_exists := true
    cfg := c1Cfg
    dist_obj := some { name := pystr "pkgb", version := pystr "2.0" } }

/-- An aggregate that has already accumulated identity, requirements,
extras and a metadata snapshot. -/
def c2State : SetupInfo :=
  { freshState with
    name := some (pystr "pkga")
    version := some (pystr "1.0")
    requirements := {BaseRequirement.from_req { name := pystr "six" }}
    extras_requirements := [(pystr "docs", [BaseRequirement.from_req { name := pystr "sphinx" }])]
    metadata := some { name := some (pystr "pkga") } }

/-- The full output mapping for the no-declaration directory: `base_dir`,
the defaulted `build_backend`, the three always-truthy `Path` references
and the supplied `extra_kwargs`; every other field is omitted. -/
def c3Dict : InfoDict :=
  { base_dir := some (pystr "/tmp/pkg")
    build_backend := some get_default_pyproject_backend
    extra_kwargs := some freshState.extra_kwargs
    setup_cfg := freshState.setup_cfg
    setup_py := freshState.setup_py
    pyproject := freshState.pyproject }

theorem nameCh_not_space {c : Nat} (h : isNameCh c = true) : isSpaceCh c = false := by
  simp only [isNameCh, decide_eq_true_eq] at h
  simp only [isSpaceCh, decide_eq_false_iff_not]
  omega

theorem specStart_not_space {c : Nat} (h : isSpecStartCh c = true) : isSpaceCh c = false := by
  simp only [isSpecStartCh, decide_eq_true_eq] at h
  simp only [isSpaceCh, decide_eq_false_iff_not]
  omega

theorem specStart_not_name {c : Nat} (h : isSpecStartCh c = true) : isNameCh c = false := by
  simp only [isSpecStartCh, decide_eq_true_eq] at h
  simp only [isNameCh, decide_eq_false_iff_not]
  omega

theorem mem_of_head? {α : Type} {l : List α} {c : α} (h : l.head? = some c) : c ∈ l := by
  cases l <;> simp_all

theorem pyStripL_eq_self {l : PyStr} (h : ∀ c, l.head? = some c → isSpaceCh c = false) :
    pyStripL l = l := by
  cases l with
  | nil => rfl
  | cons a t => simp [pyStripL, List.dropWhile_cons, h a rfl]

theorem pyStripR_eq_self {l : PyStr} (h : ∀ c, l.reverse.head? = some c → isSpaceCh c = false) :
    pyStripR l = l := by
  unfold pyStripR
  have hd : l.reverse.dropWhile isSpaceCh = l.reverse := by
    cases hr : l.reverse with
    | nil => rfl
    | cons a t => rw [List.dropWhile_cons]; simp [h a (by rw [hr]; rfl)]
  rw [hd, List.reverse_reverse]

theorem pyStrip_eq_self {l : PyStr} (h1 : ∀ c, l.head? = some c → isSpaceCh c = false)
    (h2 : ∀ c, l.reverse.head? = some c → isSpaceCh c = false) : pyStrip l = l := by
  unfold pyStrip
  rw [pyStripL_eq_self h1, pyStripR_eq_self h2]

theorem head?_dropWhile_false {α : Type} {p : α → Bool} {l : List α} {c : α}
    (h : (l.dropWhile p).head? = some c) : p c = false := by
  induction l with
  | nil => simp at h
  | cons a t ih =>
    rw [List.dropWhile_cons] at h
    by_cases hp : p a
    · simp [hp] at h; exact ih h
    · simp [hp] at h; simp [h ▸ hp]

theorem exists_append_dropWhile {α : Type} (p : α → Bool) (l : List α) :
    ∃ t, t ++ l.dropWhile p = l := by
  induction l with
  | nil => exact ⟨[], rfl⟩
  | cons a t ih =>
    by_cases hp : p a
    · obtain ⟨u, hu⟩ := ih
      exact ⟨a :: u, by simp [List.dropWhile_cons, hp, hu]⟩
    · exact ⟨[], by simp [List.dropWhile_cons, hp]⟩

theorem head?_of_pyStripR {l : PyStr} {c : Nat} (h : (pyStripR l).head? = some c) :
    l.head? = some c := by
  obtain ⟨t, ht⟩ := exists_append_dropWhile isSpaceCh l.reverse
  have hl : pyStripR l ++ t.reverse = l := by
    unfold pyStripR
    rw [← List.reverse_append, ht, List.reverse_reverse]
  rw [← hl]
  cases hs : pyStripR l with
  | nil => rw [hs] at h; simp at h
  | cons a u => rw [hs] at h; simp at h; simp [h]

theorem head?_pyStrip_not_space {l : PyStr} {c : Nat} (h : (pyStrip l).head? = some c) :
    isSpaceCh c = false := by
  unfold pyStrip at h
  have h2 : (pyStripL l).head? = some c := head?_of_pyStripR h
  unfold pyStripL at h2
  exact head?_dropWhile_false h2

theorem last_pyStrip_not_space {l : PyStr} {c : Nat} (h : (pyStrip l).reverse.head? = some c) :
    isSpaceCh c = false := by
  unfold pyStrip pyStripR at h
  rw [List.reverse_reverse] at h
  exact head?_dropWhile_false h

theorem head?_append_left {α : Type} {a b : List α} (h : a ≠ []) : (a ++ b).head? = a.head? := by
  cases a with
  | nil => exact absurd rfl h
  | cons x t => rfl

theorem init_requirement_inv {line : PyStr} {r : PReq} (h : init_requirement line = .ok r) :
    r.name = (pyStrip line).takeWhile isNameCh ∧
    r.spec = pyStrip ((pyStrip line).dropWhile isNameCh) ∧
    r.marker = [] ∧ r.name ≠ [] ∧
    (r.spec = [] ∨ ∃ c rest, r.spec = c :: rest ∧ isSpecStartCh c = true) := by
  simp only [init_requirement] at h
  split at h
  · simp at h
  · rename_i hn
    split at h
    · rename_i hsp
      simp only [Except.ok.injEq] at h
      subst h
      exact ⟨rfl, hsp.symm, rfl, hn, .inl rfl⟩
    · rename_i c rest hsp
      split at h
      · rename_i hc
        simp only [Except.ok.injEq] at h
        subst h
        exact ⟨rfl, rfl, rfl, hn, .inr ⟨c, rest, hsp, hc⟩⟩
      · simp at h

theorem init_requirement_reparse (n sp : PyStr) (hn : n ≠ [])
    (hname : ∀ c ∈ n, isNameCh c = true)
    (hspec : sp = [] ∨ ∃ c rest, sp = c :: rest ∧ isSpecStartCh c = true)
    (hlast : ∀ c, sp.reverse.head? = some c → isSpaceCh c = false) :
    init_requirement (n ++ sp) = .ok { name := n, spec := sp, marker := [] } := by
  have hstrip : pyStrip (n ++ sp) = n ++ sp := by
    apply pyStrip_eq_self
    · rw [head?_append_left hn]
      intro c hc
      exact nameCh_not_space (hname c (mem_of_head? hc))
    · rw [List.reverse_append]
      rcases hspec with h0 | ⟨c, rest, hcr, _⟩
      · subst h0
        simp only [List.reverse_nil, List.nil_append]
        intro c hc
        have hm : c ∈ n := by have := mem_of_head? hc; simpa using this
        exact nameCh_not_space (hname c hm)
      · have hrev : sp.reverse ≠ [] := by subst hcr; simp
        rw [head?_append_left hrev]
        exact hlast
  have htake : (n ++ sp).takeWhile isNameCh = n := by
    rw [List.takeWhile_append_of_pos hname]
    rcases hspec with h0 | ⟨c, rest, hcr, hc⟩
    · subst h0; simp
    · subst hcr
      rw [List.takeWhile_cons_of_neg (by simp [specStart_not_name hc])]
      simp
  have hdrop : (n ++ sp).dropWhile isNameCh = sp := by
    rw [List.dropWhile_append_of_pos hname]
    rcases hspec with h0 | ⟨c, rest, hcr, hc⟩
    · subst h0; simp
    · subst hcr
      rw [List.dropWhile_cons_of_neg (by simp [specStart_not_name hc])]
  have hspstrip : pyStrip sp = sp := by
    apply pyStrip_eq_self
    · rcases hspec with h0 | ⟨c, rest, hcr, hc⟩
      · subst h0; intro c hc0; simp at hc0
      · subst hcr
        intro c' hc'
        simp only [List.head?_cons, Option.some.injEq] at hc'
        subst hc'
        exact specStart_not_space hc
    · exact hlast
  simp only [init_requirement, hstrip, htake, hdrop, hspstrip]
  rw [if_neg hn]
  rcases hspec with h0 | ⟨c, rest, hcr, hc⟩
  · subst h0; rfl
  · subst hcr
    simp [hc]

/-- C9: for every requirement line that `BaseRequirement.from_string`
parses successfully, printing the record and parsing again returns an equal
record (parse-stringify-parse round trip). -/
theorem from_string_roundtrip (line : PyStr) (b : BaseRequirement)
    (h : BaseRequirement.from_string line = .ok b) :
    BaseRequirement.from_string b.toStr = .ok b := by
  unfold BaseRequirement.from_string at h ⊢
  cases hinit : init_requirement (pyStrip line) with
  | error e => rw [hinit] at h; simp [Except.map] at h
  | ok r =>
    rw [hinit] at h
    simp only [Except.map, Except.ok.injEq] at h
    subst h
    obtain ⟨hn_eq, hsp_eq, hmk, hne, hspec⟩ := init_requirement_inv hinit
    have hname : ∀ c ∈ r.name, isNameCh c = true := by
      rw [hn_eq]; intro c hc; exact List.mem_takeWhile_imp hc
    have hlast : ∀ c, r.spec.reverse.head? = some c → isSpaceCh c = false := by
      rw [hsp_eq]; intro c hc; exact last_pyStrip_not_space hc
    have htostr : (BaseRequirement.from_req r).toStr = r.name ++ r.spec := by
      simp [BaseRequirement.toStr, BaseRequirement.from_req, PReq.toStr, hmk]
    rw [htostr]
    have hstrip : pyStrip (r.name ++ r.spec) = r.name ++ r.spec := by
      apply pyStrip_eq_self
      · rw [head?_append_left hne]
        intro c hc
        exact nameCh_not_space (hname c (mem_of_head? hc))
      · rw [List.reverse_append]
        rcases hspec with h0 | ⟨c, rest, hcr, _⟩
        · rw [h0]
          simp only [List.reverse_nil, List.nil_append]
          intro c hc
          have hm : c ∈ r.name := by have := mem_of_head? hc; simpa using this
          exact nameCh_not_space (hname c hm)
        · have hrev : r.spec.reverse ≠ [] := by rw [hcr]; simp
          rw [head?_append_left hrev]
          exact hlast
    rw [hstrip]
    rw [init_requirement_reparse r.name r.spec hne hname hspec hlast]
    simp only [Except.map, Except.ok.injEq]
    have hr : ({ name := r.name, spec := r.spec, marker := [] } : PReq) = r := by rw [← hmk]
    rw [hr]

/-- Witness for C9 at the line `"Foo >=1.0"`. -/
theorem from_string_roundtrip_witness :
    BaseRequirement.from_string (pystr "Foo >=1.0") =
      .ok { name := pystr "foo", requirement := { name := pystr "Foo", spec := pystr ">=1.0" } } ∧
    BaseRequirement.from_string
        (BaseRequirement.toStr
          { name := pystr "foo", requirement := { name := pystr "Foo", spec := pystr ">=1.0" } }) =
      .ok { name := pystr "foo", requirement := { name := pystr "Foo", spec := pystr ">=1.0" } } :=
  ⟨by decide, from_string_roundtrip (pystr "Foo >=1.0") _ (by decide)⟩

theorem isPrefixOf_append_self (a b : List Nat) : a.isPrefixOf (a ++ b) = true := by
  induction a with
  | nil => simp [List.isPrefixOf]
  | cons x t ih => simp [List.isPrefixOf, ih]

theorem fileColon_not_prefix_attr (rest : PyStr) :
    fileColon.isPrefixOf (attrColon ++ rest) = false := by
  have h1 : fileColon = 102 :: [105, 108, 101, 58] := by decide
  have h2 : attrColon = 97 :: [116, 116, 114, 58] := by decide
  rw [h1, h2]
  simp [List.isPrefixOf]

/-- C4 counterexample: a `file:` directive whose target file does not exist
is returned verbatim as the field value — the extractor does not raise for
it, contradicting the claim that every unresolvable indirection directive
raises and that the unresolved directive text is never returned. -/
theorem parse_special_directives_missing_file :
    parse_special_directives { files := [], modules := [] } (pystr "file:missing.txt") =
      .ok (pystr "file:missing.txt") := by decide

/-- C4 (amended): an `attr:` directive whose module is unimportable raises
ImportError and one whose attribute is missing raises AttributeError —
those failures do propagate — but a `file:` directive whose target file
does not exist is returned as the unresolved literal directive text instead
of raising. -/
theorem parse_special_directives_amended :
    (∀ (denv : DirEnv) (rest : PyStr),
      containsSeq fileColon rest = false →
      alookup (pyStrip rest) denv.files = none →
      parse_special_directives denv (fileColon ++ rest) = .ok (fileColon ++ rest)) ∧
    (∀ (denv : DirEnv) (rest : PyStr),
      containsSeq attrColon rest = false →
      (46 : Nat) ∈ pyStrip rest →
      alookup (rpartitionDot (pyStrip rest)).1 denv.modules = none →
      parse_special_directives denv (attrColon ++ rest) = .error .importError) ∧
    (∀ (denv : DirEnv) (rest : PyStr) (attrs : List (PyStr × PyStr)),
      containsSeq attrColon rest = false →
      (46 : Nat) ∈ pyStrip rest →
      alookup (rpartitionDot (pyStrip rest)).1 denv.modules = some attrs →
      alookup (rpartitionDot (pyStrip rest)).2 attrs = none →
      parse_special_directives denv (attrColon ++ rest) = .error .attributeError) := by
  refine ⟨?_, ?_, ?_⟩
  · intro denv rest h1 h2
    simp only [parse_special_directives, isPrefixOf_append_self, List.drop_left, h1, h2,
      if_true, Bool.false_eq_true, if_false]
  · intro denv rest h1 h2 h3
    simp only [parse_special_directives, fileColon_not_prefix_attr, isPrefixOf_append_self,
      List.drop_left, h1, h2, h3, if_true, Bool.false_eq_true, if_false]
  · intro denv rest attrs h1 h2 h3 h4
    simp only [parse_special_directives, fileColon_not_prefix_attr, isPrefixOf_append_self,
      List.drop_left, h1, h2, h3, h4, if_true, Bool.false_eq_true, if_false]

/-- Witness for C4 (amended) at concrete directives. -/
theorem parse_special_directives_amended_witness :
    parse_special_directives { files := [], modules := [] } (pystr "file:README.rst") =
      .ok (pystr "file:README.rst") ∧
    parse_special_directives { files := [], modules := [] } (pystr "attr:mymod.version") =
      .error .importError ∧
    parse_special_directives { files := [], modules := [(pystr "mymod", [])] }
        (pystr "attr:mymod.version") = .error .attributeError :=
  ⟨parse_special_directives_amended.1 { files := [], modules := [] } (pystr "README.rst")
      (by decide) (by decide),
   parse_special_directives_amended.2.1 { files := [], modules := [] } (pystr "mymod.version")
      (by decide) (by decide) (by decide),
   parse_special_directives_amended.2.2 { files := [], modules := [(pystr "mymod", [])] }
      (pystr "mymod.version") [] (by decide) (by decide) (by decide) (by decide)⟩

set_option maxHeartbeats 2000000 in
/-- C5 (amended): in every successful run of the config extractor the
scalar keys `name`, `version`, `python_requires` and `build_requires` are
present in the result exactly when the corresponding option is declared in
the file, but the keys `install_requires` and `extras_require` are always
present — empty rather than absent when undeclared. -/
theorem parse_setup_cfg_key_presence (denv : DirEnv) (cfg : CfgFile) (r : CfgResult)
    (h : parse_setup_cfg denv (some cfg) = .ok (some r)) :
    r.install_requires.isSome = true ∧
    r.extras_require.isSome = true ∧
    r.name.isSome = declaredOpt cfg (pystr "metadata") (pystr "name") ∧
    r.version.isSome = declaredOpt cfg (pystr "metadata") (pystr "version") ∧
    r.python_requires.isSome = declaredOpt cfg (pystr "options") (pystr "python_requires") ∧
    r.build_requires.isSome = declaredOpt cfg (pystr "options") (pystr "build_requires") := by
  simp only [parse_setup_cfg, CfgFile.has_option, bind, Except.bind, pure, Except.pure] at h
  simp only [declaredOpt]
  repeat' split at h
  all_goals try simp only [Except.ok.injEq, Option.some.injEq] at h
  all_goals first
    | simp at h
    | (subst h; split_ifs at * <;> simp_all)

/-- C5 counterexample: for a config file that declares neither
`install_requires` nor any `options.extras_require` section, the extractor's
result still carries the keys `install_requires` (mapped to an empty set)
and `extras_require` (mapped to an empty tuple) — an absent section is not
absent from the result. -/
theorem parse_setup_cfg_undeclared_keys :
    parse_setup_cfg { files := [], modules := [] } (some cfgC5) = .ok (some cfgC5r) := by decide

/-- Witness for the C5 key-presence characterization at `cfgC5`. -/
theorem parse_setup_cfg_key_presence_witness :
    cfgC5r.install_requires.isSome = true ∧
    cfgC5r.extras_require.isSome = true ∧
    cfgC5r.name.isSome = declaredOpt cfgC5 (pystr "metadata") (pystr "name") ∧
    cfgC5r.version.isSome = declaredOpt cfgC5 (pystr "metadata") (pystr "version") ∧
    cfgC5r.python_requires.isSome = declaredOpt cfgC5 (pystr "options") (pystr "python_requires") ∧
    cfgC5r.build_requires.isSome = declaredOpt cfgC5 (pystr "options") (pystr "build_requires") :=
  parse_setup_cfg_key_presence { files := [], modules := [] } cfgC5 cfgC5r (by decide)

theorem alookup_append_of_isSome {α : Type} {k : PyStr} {a : List (PyStr × α)}
    (b : List (PyStr × α)) (h : (alookup k a).isSome = true) :
    alookup k (a ++ b) = alookup k a := by
  induction a with
  | nil => simp [alookup] at h
  | cons kv rest ih =>
    obtain ⟨k', v⟩ := kv
    by_cases hk : k = k' <;> simp [alookup, hk] at h ⊢
    exact ih h

theorem alookup_append_of_none {α : Type} {k : PyStr} {a : List (PyStr × α)}
    (b : List (PyStr × α)) (h : alookup k a = none) :
    alookup k (a ++ b) = alookup k b := by
  induction a with
  | nil => rfl
  | cons kv rest ih =>
    obtain ⟨k', v⟩ := kv
    by_cases hk : k = k' <;> simp [alookup, hk] at h ⊢
    exact ih h

theorem alookup_alApply {α : Type} (k t : PyStr) (f : α → α) (d : List (PyStr × α)) :
    alookup k (alApply t f d) = if k = t then (alookup k d).map f else alookup k d := by
  induction d with
  | nil => by_cases h : k = t <;> simp [alApply, alookup, h]
  | cons kv rest ih =>
    obtain ⟨k', v⟩ := kv
    by_cases ht : k' = t
    · subst ht
      by_cases hk : k = k'
      · subst hk
        simp [alApply, alookup]
      · simp [alApply, alookup, hk, ih]
    · by_cases hk : k = k'
      · subst hk
        simp [alApply, alookup, ht]
      · simp [alApply, alookup, ht, hk, ih]

theorem splitRunRequires_fst (l rs : List PReq) (ex : List (PyStr × List PReq)) :
    (splitRunRequires rs ex l).1 =
      rs ++ l.filter (fun r => (get_extra_name_from_marker r.marker).isNone) := by
  induction l generalizing rs ex with
  | nil => simp [splitRunRequires]
  | cons req rest ih =>
    by_cases hm : req.marker.isEmpty
    · have hge : get_extra_name_from_marker req.marker = none := by
        rw [List.isEmpty_iff] at hm
        simp [get_extra_name_from_marker, hm]
      simp [splitRunRequires, hm, ih, hge, List.filter_cons]
    · cases hge : get_extra_name_from_marker req.marker with
      | none => simp [splitRunRequires, hm, ih, hge, List.filter_cons]
      | some e => simp [splitRunRequires, hm, ih, hge, List.filter_cons]

theorem splitRunRequires_extras_mono (l : List PReq) (rs : List PReq)
    (ex : List (PyStr × List PReq)) (e : PyStr) (v : PReq)
    (h : v ∈ (alookup e ex).getD []) :
    v ∈ (alookup e (splitRunRequires rs ex l).2).getD [] := by
  induction l generalizing rs ex with
  | nil => exact h
  | cons req rest ih =>
    by_cases hm : req.marker.isEmpty
    · simp only [splitRunRequires, hm, if_true]
      exact ih _ _ h
    · simp only [splitRunRequires, hm, Bool.false_eq_true, if_false]
      cases hge : get_extra_name_from_marker req.marker with
      | none => exact ih _ _ h
      | some e' =>
        simp only
        apply ih
        -- membership survives the ensure-key step and the append to e'
        cases hl : alookup e ex with
        | none => simp [hl] at h
        | some lv =>
          have hsome : (alookup e ex).isSome = true := by simp [hl]
          by_cases hee : e = e'
          · subst hee
            rw [alookup_alApply]
            simp only [if_pos rfl]
            rw [if_pos hsome, hl]
            simp
            rw [hl] at h
            simp at h
            exact .inl h
          · rw [alookup_alApply, if_neg hee]
            by_cases hp : (alookup e' ex).isSome = true
            · rw [if_pos hp, hl]; simpa [hl] using h
            · rw [if_neg hp, alookup_append_of_isSome _ hsome, hl]
              simpa [hl] using h

theorem splitRunRequires_extras_mem (l : List PReq) (rs : List PReq)
    (ex : List (PyStr × List PReq)) (r : PReq) (e : PyStr)
    (hr : r ∈ l) (hge : get_extra_name_from_marker r.marker = some e) :
    strip_extras_markers_from_requirement r ∈
      (alookup e (splitRunRequires rs ex l).2).getD [] := by
  induction l generalizing rs ex with
  | nil => simp at hr
  | cons req rest ih =>
    rcases List.mem_cons.mp hr with heq | htl
    · subst heq
      have hm : r.marker.isEmpty = false := by
        cases hmk : r.marker with
        | nil => rw [hmk] at hge; simp [get_extra_name_from_marker] at hge
        | cons a t => simp [hmk]
      simp only [splitRunRequires, hm, Bool.false_eq_true, if_false, hge]
      set ex1 := if (alookup e ex).isSome then ex else ex ++ [(e, [])] with hex1
      have hsome : (alookup e ex1).isSome = true := by
        rw [hex1]
        cases hl : alookup e ex with
        | none =>
          rw [if_neg (by simp [hl])]
          rw [alookup_append_of_none _ hl]
          simp [alookup]
        | some lv => rw [if_pos (by simp [hl])]; simp [hl]
      apply splitRunRequires_extras_mono
      rw [alookup_alApply, if_pos rfl]
      cases hl1 : alookup e ex1 with
      | none => rw [hl1] at hsome; simp at hsome
      | some lv => simp [hl1]
    · by_cases hm : req.marker.isEmpty
      · simp only [splitRunRequires, hm, if_true]
        exact ih _ _ htl
      · simp only [splitRunRequires, hm, Bool.false_eq_true, if_false]
        cases hge' : get_extra_name_from_marker req.marker with
        | none => exact ih _ _ htl
        | some e' => exact ih _ _ htl

theorem depMapLoop_lookup_of_absent (entries : List (Option PyStr × List PReq))
    (deps : List PReq) (ex : List (PyStr × List PReq)) (k : PyStr)
    (habs : ∀ reqs', (some k, reqs') ∉ entries) :
    alookup k (depMapLoop deps ex entries).2 = alookup k ex := by
  induction entries generalizing deps ex with
  | nil => rfl
  | cons kv rest ih =>
    obtain ⟨ok', reqs'⟩ := kv
    have habs' : ∀ reqs', (some k, reqs') ∉ rest := fun q hq =>
      habs q (List.mem_cons_of_mem _ hq)
    cases ok' with
    | none => simp only [depMapLoop]; exact ih _ _ habs'
    | some k' =>
      have hkk : k ≠ k' := by
        intro hk
        exact habs reqs' (by rw [hk]; exact List.mem_cons_self _ _)
      by_cases hp : pyverKey.isPrefixOf k'
      · simp only [depMapLoop, hp, if_true]
        exact ih _ _ habs'
      · simp only [depMapLoop, hp, Bool.false_eq_true, if_false]
        by_cases hs : (alookup k' ex).isSome = true
        · rw [if_pos hs, ih _ _ habs', alookup_alApply, if_neg hkk]
        · rw [if_neg hs, ih _ _ habs']
          cases hl : alookup k ex with
          | none => rw [alookup_append_of_none _ hl]; simp [alookup, hkk]
          | some lv => rw [alookup_append_of_isSome _ (by simp [hl])]; exact hl

theorem depMapLoop_lookup (entries : List (Option PyStr × List PReq))
    (deps : List PReq) (ex : List (PyStr × List PReq)) (k : PyStr) (reqs : List PReq)
    (hmem : (some k, reqs) ∈ entries) (hnd : (entries.map Prod.fst).Nodup)
    (hp : pyverKey.isPrefixOf k = false) :
    alookup k (depMapLoop deps ex entries).2 = some (ensure_reqs reqs) := by
  induction entries generalizing deps ex with
  | nil => simp at hmem
  | cons kv rest ih =>
    obtain ⟨ok', reqs'⟩ := kv
    rw [List.map_cons, List.nodup_cons] at hnd
    rcases List.mem_cons.mp hmem with heq | htl
    · injection heq with h1 h2
      subst h2
      have hok : ok' = some k := h1.symm
      subst hok
      have habs : ∀ q, (some k, q) ∉ rest := by
        intro q hq
        exact hnd.1 (by simpa using List.mem_map_of_mem Prod.fst hq)
      simp only [depMapLoop, hp, Bool.false_eq_true, if_false]
      by_cases hs : (alookup k ex).isSome = true
      · rw [if_pos hs, depMapLoop_lookup_of_absent _ _ _ _ habs, alookup_alApply, if_pos rfl]
        cases hl : alookup k ex with
        | none => rw [hl] at hs; simp at hs
        | some lv => simp
      · rw [if_neg hs, depMapLoop_lookup_of_absent _ _ _ _ habs]
        have hl : alookup k ex = none := by
          cases hl : alookup k ex with
          | none => rfl
          | some lv => rw [hl] at hs; simp at hs
        rw [alookup_append_of_none _ hl]
        simp [alookup]
    · have hne : ok' ≠ some k := by
        intro hk
        subst hk
        exact hnd.1 (by simpa using List.mem_map_of_mem Prod.fst htl)
      cases ok' with
      | none => simp only [depMapLoop]; exact ih _ _ htl hnd.2
      | some k' =>
        by_cases hpk : pyverKey.isPrefixOf k'
        · simp only [depMapLoop, hpk, if_true]
          exact ih _ _ htl hnd.2
        · simp only [depMapLoop, hpk, Bool.false_eq_true, if_false]
          by_cases hs : (alookup k' ex).isSome = true
          · rw [if_pos hs]; exact ih _ _ htl hnd.2
          · rw [if_neg hs]; exact ih _ _ htl hnd.2

/-- C6: in the wheel extractor, the unconditional requirement list consists
exactly of the run-time requirements whose marker carries no
`extra == <name>` qualifier (so a requirement qualified only by a
`python_version` marker stays there, marker intact and unmodified), while a
requirement whose marker does carry `extra == <name>` is filed — stripped of
its extras-membership marker — under `extras[<name>]`.  In the
installed-metadata extractor, every non-`python_version` dep-map section
likewise surfaces under its extra name (the requirements there carry the
extras qualifier in the section key, so they are marker-free). -/
theorem extras_marker_split (w : WheelMeta) :
    ((get_metadata_from_wheel w).requires =
      w.run_requires.filter (fun r => (get_extra_name_from_marker r.marker).isNone)) ∧
    (∀ r e, r ∈ w.run_requires → get_extra_name_from_marker r.marker = some e →
      strip_extras_markers_from_requirement r ∈
        (alookup e (get_metadata_from_wheel w).extras).getD []) ∧
    (∀ (d : PRDist) (k : PyStr) (reqs : List PReq),
      (some k, reqs) ∈ d.dep_map → (d.dep_map.map Prod.fst).Nodup →
      pyverKey.isPrefixOf k = false →
      alookup k (get_metadata_from_dist d).extras = some (ensure_reqs reqs)) := by
  refine ⟨?_, ?_, ?_⟩
  · simp only [get_metadata_from_wheel]
    exact splitRunRequires_fst _ _ _
  · intro r e hr hge
    simp only [get_metadata_from_wheel]
    exact splitRunRequires_extras_mem _ _ _ _ _ hr hge
  · intro d k reqs hmem hnd hp
    simp only [get_metadata_from_dist]
    exact depMapLoop_lookup _ _ _ _ _ hmem hnd hp

/-- Witness for C6 at `wmC6` and `prdC6`. -/
theorem extras_marker_split_witness :
    strip_extras_markers_from_requirement sphinxReq ∈
      (alookup (pystr "docs") (get_metadata_from_wheel wmC6).extras).getD [] ∧
    alookup (pystr "docs") (get_metadata_from_dist prdC6).extras =
      some (ensure_reqs [{ name := pystr "sphinx" }]) :=
  ⟨(extras_marker_split wmC6).2.1 sphinxReq (pystr "docs") (by decide) (by decide),
   (extras_marker_split wmC6).2.2 prdC6 (pystr "docs") [{ name := pystr "sphinx" }]
     (by decide) (by decide) (by decide)⟩

/-- C7: when the installed-metadata search finds both an egg-info-style and
a dist-info-style metadata directory and no convention filter is given, the
distribution parsed from the modern dist-info convention is the one whose
metadata is returned. -/
theorem get_metadata_prefers_distinfo (env : GMEnv) (ed dd : PyStr) (d : PRDist)
    (hegg : env.egg_dir = some ed) (hdist : env.dist_dir = some dd)
    (hparsed : env.distinfo_dist = some d) :
    get_metadata env none = some (get_metadata_from_dist d) := by
  simp [get_metadata, hegg, hdist, hparsed]

/-- Witness for C7: both conventions present, each parseable; the dist-info
distribution (version 2.0) wins over the egg-info one (version 1.0). -/
theorem get_metadata_prefers_distinfo_witness :
    get_metadata
        { egg_dir := some (pystr "pkg.egg-info")
          dist_dir := some (pystr "pkg.dist-info")
          distinfo_dist := some { project_name := pystr "pkg", version := pystr "2.0" }
          egg_dist := some { project_name := pystr "pkg", version := pystr "1.0" } }
        none =
      some (get_metadata_from_dist { project_name := pystr "pkg", version := pystr "2.0" }) :=
  get_metadata_prefers_distinfo _ (pystr "pkg.egg-info") (pystr "pkg.dist-info") _
    (by decide) (by decide) (by decide)

theorem populate_extra_step_requirements (m : Metadata) (s : SetupInfo) (e : PyStr) :
    (populate_extra_step m s e).requirements = s.requirements ∪ extraReqSet m e := by
  unfold populate_extra_step extraReqSet
  dsimp only
  split <;> simp

theorem populate_extra_step_ireq (m : Metadata) (s : SetupInfo) (e : PyStr) :
    (populate_extra_step m s e).ireq = s.ireq := by
  unfold populate_extra_step
  dsimp only
  split <;> rfl

theorem foldl_union_acc (f : PyStr → Finset BaseRequirement) (exs : List PyStr)
    (a : Finset BaseRequirement) :
    exs.foldl (fun acc e => acc ∪ f e) a = a ∪ exs.foldl (fun acc e => acc ∪ f e) ∅ := by
  induction exs generalizing a with
  | nil => simp
  | cons e rest ih =>
    simp only [List.foldl_cons]
    rw [ih (a ∪ f e), ih (∅ ∪ f e)]
    simp [Finset.union_assoc]

theorem foldl_populate_extra_step_requirements (m : Metadata) (exs : List PyStr) (s : SetupInfo) :
    (exs.foldl (populate_extra_step m) s).requirements =
      s.requirements ∪ exs.foldl (fun acc e => acc ∪ extraReqSet m e) ∅ := by
  induction exs generalizing s with
  | nil => simp
  | cons e rest ih =>
    simp only [List.foldl_cons]
    rw [ih, populate_extra_step_requirements, foldl_union_acc _ _ (∅ ∪ extraReqSet m e)]
    simp [Finset.union_assoc]

theorem foldl_populate_extra_step_ireq (m : Metadata) (exs : List PyStr) (s : SetupInfo) :
    (exs.foldl (populate_extra_step m) s).ireq = s.ireq := by
  induction exs generalizing s with
  | nil => rfl
  | cons e rest ih =>
    simp only [List.foldl_cons]
    rw [ih, populate_extra_step_ireq]

theorem populate_metadata_requirements (s : SetupInfo) (m : Metadata) :
    (s.populate_metadata m).requirements =
      s.requirements ∪ (m.requires.map BaseRequirement.from_req).toFinset ∪
        ireqExtrasSet s.ireq m := by
  unfold SetupInfo.populate_metadata
  cases hmv : m.version <;> (try dsimp only) <;> split <;> (try dsimp only) <;> split <;> (try dsimp only) <;>
    cases hir : s.ireq <;> (try dsimp only) <;> (try split_ifs) <;>
    simp_all [ireqExtrasSet, foldl_populate_extra_step_requirements, Finset.union_assoc]

theorem populate_metadata_ireq (s : SetupInfo) (m : Metadata) :
    (s.populate_metadata m).ireq = s.ireq := by
  unfold SetupInfo.populate_metadata
  cases hmv : m.version <;> (try dsimp only) <;> split <;> (try dsimp only) <;> split <;> (try dsimp only) <;>
    cases hir : s.ireq <;> (try dsimp only) <;> (try split_ifs) <;>
    simp_all [foldl_populate_extra_step_ireq]

/-- C8: merging the same partial metadata record twice leaves the
aggregate's requirement set exactly as after merging it once — the
union-based merge of `populate_metadata` is idempotent on `_requirements`. -/
theorem populate_metadata_idempotent (s : SetupInfo) (m : Metadata) :
    ((s.populate_metadata m).populate_metadata m).requirements =
      (s.populate_metadata m).requirements := by
  rw [populate_metadata_requirements, populate_metadata_requirements, populate_metadata_ireq]
  ext x
  simp only [Finset.mem_union]
  tauto

/-- C10 (code bug): adding a requirement that is not already present to an
`Extra` evaluates `frozenset(set(self.requirements).add(req))`; Python's
`set.add` returns `None`, and `frozenset(None)` raises TypeError, so the
promised evolved copy is never produced. -/
theorem extra_add_raises :
    Extra.add { name := some (pystr "docs"), requirements := ∅ }
      (BaseRequirement.from_req { name := pystr "sphinx" }) = .error .typeError := by decide

/-- C1 (code bug): the orchestrator parses `setup.cfg` first, setting
`name = pkga`; both builds and probes yield nothing, so it falls back to
the legacy script, and `run_setup` assigns `self.name = dist.get_name()`
without the is-it-already-set guard every neighbouring field has
(setup_info.py:705-707) — the already-resolved name is overwritten with
`pkgb`.  `version`, which is guarded (`if not self.version`), survives as
`1.0`. -/
theorem run_setup_overwrites_name :
    (SetupInfo.get_info c1Env freshState).map (fun p => (p.1.name, p.1.version)) =
      .ok (some (pystr "pkgb"), some (pystr "1.0")) ∧
    (SetupInfo.run_setup c1Env { freshState with name := some (pystr "pkga") }).name =
      some (pystr "pkgb") := by
  exact ⟨by decide, by decide⟩

/-- C2 counterexample: `reload` on an environment whose fresh resolution
derives nothing leaves `name = pkga` and `version = 1.0` in place — the
identity fields are not cleared, while the requirement set, extras tuple
and metadata snapshot are reset (and re-derived as empty). -/
theorem reload_keeps_identity :
    (SetupInfo.reload {} c2State).map
        (fun p => (p.1.name, p.1.version, p.1.requirements, p.1.extras_requirements, p.1.metadata)) =
      .ok (some (pystr "pkga"), some (pystr "1.0"), (∅ : Finset BaseRequirement), [], none) := rfl

/-- C2 (amended): `reload` resets exactly the cached metadata snapshot, the
requirement set and the extras tuple, and re-runs the full `get_info`
resolution pass against the current environment; the identity fields `name`
and `version` are not part of the reset. -/
theorem reload_clears_and_reruns (env : Env) (s : SetupInfo) :
    SetupInfo.reload env s =
      SetupInfo.get_info env
        { s with metadata := none, requirements := ∅, extras_requirements := [] } := rfl

/-- C3 counterexample: resolution of a directory with no packaging
declaration at all does terminate normally, but the output mapping carries
`build_backend` (the always-set default) besides `base_dir` — it does not
contain only the `base_dir` key. -/
theorem get_info_dict_not_only_base_dir :
    (SetupInfo.get_info {} freshState).map
        (fun p => ((SetupInfo.as_dict p.1).base_dir, (SetupInfo.as_dict p.1).build_backend)) =
      .ok (some (pystr "/tmp/pkg"), some get_default_pyproject_backend) := by decide

/-- C3 (amended): on a directory with no recognizable packaging declaration
`get_info` terminates without an exception and its output mapping holds
exactly `base_dir`, the defaulted `build_backend`, the three path
references and `extra_kwargs`; and in general every field that is unset or
empty is omitted from `as_dict` rather than present with an empty or null
value. -/
theorem get_info_empty_dir :
    ((SetupInfo.get_info {} freshState).map (fun p => SetupInfo.as_dict p.1) = .ok c3Dict) ∧
    (∀ s : SetupInfo, pyTruthy s.name = false → (SetupInfo.as_dict s).name = none) ∧
    (∀ s : SetupInfo, pyTruthy s.version = false → (SetupInfo.as_dict s).version = none) ∧
    (∀ s : SetupInfo, pyTruthy s.base_dir = false → (SetupInfo.as_dict s).base_dir = none) ∧
    (∀ s : SetupInfo, s.ireq = none → (SetupInfo.as_dict s).ireq = none) ∧
    (∀ s : SetupInfo, s.build_backend = [] → (SetupInfo.as_dict s).build_backend = none) ∧
    (∀ s : SetupInfo, s.build_requires = [] → (SetupInfo.as_dict s).build_requires = none) ∧
    (∀ s : SetupInfo, s.requirements = ∅ → (SetupInfo.as_dict s).requires = none) ∧
    (∀ s : SetupInfo, s.setup_requires = [] → (SetupInfo.as_dict s).setup_requires = none) ∧
    (∀ s : SetupInfo, pyTruthy s.python_requires = false →
      (SetupInfo.as_dict s).python_requires = none) ∧
    (∀ s : SetupInfo, SetupInfo.extras s = [] → (SetupInfo.as_dict s).extras = none) ∧
    (∀ s : SetupInfo, s.extra_kwargs = [] → (SetupInfo.as_dict s).extra_kwargs = none) ∧
    (∀ s : SetupInfo, s.setup_cfg = none → (SetupInfo.as_dict s).setup_cfg = none) ∧
    (∀ s : SetupInfo, s.setup_py = none → (SetupInfo.as_dict s).setup_py = none) ∧
    (∀ s : SetupInfo, s.pyproject = none → (SetupInfo.as_dict s).pyproject = none) := by
  refine ⟨by decide, ?_, ?_, ?_, ?_, ?_, ?_, ?_, ?_, ?_, ?_, ?_, ?_, ?_, ?_⟩ <;>
    intro s h <;> simp [SetupInfo.as_dict, SetupInfo.requires, h]

/-- Witness for the C3 omission clauses at the attrs-default aggregate. -/
theorem get_info_empty_dir_witness :
    (SetupInfo.as_dict {}).name = none ∧
    (SetupInfo.as_dict {}).requires = none ∧
    (SetupInfo.as_dict {}).extras = none ∧
    (SetupInfo.as_dict {}).version = none :=
  ⟨get_info_empty_dir.2.1 {} (by decide),
   get_info_empty_dir.2.2.2.2.2.2.2.1 {} (by decide),
   get_info_empty_dir.2.2.2.2.2.2.2.2.2.2.1 {} (by decide),
   get_info_empty_dir.2.2.1 {} (by decide)⟩
